import Mathlib

set_option maxRecDepth 100000

/-!
Verification of the Intcode virtual machine from `src/intcode/src/lib.rs`.

Modelling conventions, chosen to mirror the Rust source:
* `Byte = i128` is modelled as `Int`; the arithmetic instructions use the
  mathematical operations, and where a claim concerns overflow we prove the
  concrete results fit in the `i128` range.
* `usize` indices and the relative base register are modelled as `Nat`
  (the source converts to and from `usize` with `try_from`, which fails on
  negative values; those failure points are modelled explicitly).
* A Rust `Result::Err` (recoverable, surfaced by `Computer::execute`) is
  modelled as `Failure.err`; a Rust panic (process abort: slice indexing out
  of range, `expect` on a failed conversion, explicit `panic!`) is modelled
  as `Failure.panic`.  Both live in one `Except Failure` monad because a
  panic also stops execution, but the two are kept distinguishable.
* The endless `loop` of `Computer::execute` is modelled with explicit fuel:
  `Computer.run fuel s = none` means the loop did not finish within `fuel`
  iterations, `some r` means it returned result `r` (final state or failure).
* Strings (for `parse_program` / `Computer::from_str`) are modelled as
  `List Char`.
-/

/-- `pub type Byte = i128;` -/
abbrev Byte := Int

/-- `pub type Program = Vec<Byte>;` -/
abbrev Program := List Byte

/-- The `Result::Err` values the VM can produce (the source boxes string
messages; we keep a structured enumeration of the distinct messages). -/
inductive VMErr where
  | unknownMode : Byte → VMErr
  | unknownOpcode : Byte → VMErr
  | notEnoughArguments : VMErr
  | noMoreInput : VMErr
  | conversionFailed : VMErr
  | parseFailed : VMErr
deriving DecidableEq, Repr

/-- The panics the VM can hit (distinct from recoverable `Result::Err`s). -/
inductive PanicKind where
  | indexOutOfRange : PanicKind
  | writeToImmediate : PanicKind
  | negativeAddress : PanicKind
deriving DecidableEq, Repr

/-- A failed computation: either a Rust `Err` (surfaced to the caller of
`Computer::execute`) or a panic (aborts the thread). -/
inductive Failure where
  | err : VMErr → Failure
  | panic : PanicKind → Failure
deriving DecidableEq, Repr

/-- `enum Parameter { Position(ProgramCounter), Immediate(Byte), Relative(ProgramCounterOffset) }` -/
inductive Parameter where
  | position : Nat → Parameter
  | immediate : Byte → Parameter
  | relative : Int → Parameter
deriving DecidableEq, Repr

/-- `Parameter::from_mode_and_value`: mode 0 converts the value to a `usize`
address (an `Err` on negative values), mode 1 keeps the literal, mode 2
keeps the signed offset, any other mode is an `Err`. -/
def Parameter.from_mode_and_value (mode : Byte) (value : Byte) : Except Failure Parameter :=
  if mode = 0 then
    if value < 0 then .error (.err .conversionFailed) else .ok (.position value.toNat)
  else if mode = 1 then .ok (.immediate value)
  else if mode = 2 then .ok (.relative value)
  else .error (.err (.unknownMode mode))

/-- `Parameter::read`: `Position` and resolved `Relative` addresses read with
`program.get(a).copied().unwrap_or(0)` — out-of-range reads yield 0 without
touching the program; a negative resolved relative address panics
(`usize::try_from(b + r).expect(..)`). -/
def Parameter.read (p : Parameter) (program : Program) (relative_base : Nat) :
    Except Failure Byte :=
  match p with
  | .position a => .ok (program.getD a 0)
  | .immediate i => .ok i
  | .relative r =>
    let a : Int := (relative_base : Int) + r
    if a < 0 then .error (.panic .negativeAddress)
    else .ok (program.getD a.toNat 0)

/-- The `program.resize(a + 1, 0); program[a] = value` pattern of
`Parameter::write`: grow with zeros up to index `a` if needed, then set. -/
def storeAt (program : Program) (a : Nat) (value : Byte) : Program :=
  let program :=
    if program.length ≤ a then program ++ List.replicate (a + 1 - program.length) 0
    else program
  program.set a value

/-- `Parameter::write`: `Position` and resolved `Relative` addresses grow the
program as needed then store; writing through `Immediate` panics
(`panic!("Must not write to immediate parameter")`); a negative resolved
relative address panics. -/
def Parameter.write (p : Parameter) (program : Program) (relative_base : Nat)
    (value : Byte) : Except Failure Program :=
  match p with
  | .position a => .ok (storeAt program a value)
  | .immediate _ => .error (.panic .writeToImmediate)
  | .relative r =>
    let a : Int := (relative_base : Int) + r
    if a < 0 then .error (.panic .negativeAddress)
    else .ok (storeAt program a.toNat value)

/-- `enum Operation` — one decoded instruction. -/
inductive Operation where
  | add : Parameter → Parameter → Parameter → Operation
  | multiply : Parameter → Parameter → Parameter → Operation
  | input : Parameter → Operation
  | output : Parameter → Operation
  | jumpIfTrue : Parameter → Parameter → Operation
  | jumpIfFalse : Parameter → Parameter → Operation
  | lessThan : Parameter → Parameter → Parameter → Operation
  | equals : Parameter → Parameter → Parameter → Operation
  | adjustRelativeBase : Parameter → Operation
  | halt : Operation
deriving DecidableEq, Repr

/-- `Operation::modes`: the iterator yielding `raw_op % (a * 10) / a` for
`a = 100, 1000, 10000, …`; its `i`-th element.  Rust's `%` and `/` on `i128`
truncate toward zero, i.e. `Int.tmod` and `Int.tdiv`. -/
def Operation.modes (raw_op : Byte) (i : Nat) : Byte :=
  (raw_op.tmod (100 * 10 ^ i * 10)).tdiv (100 * 10 ^ i)

/-- `Operation::decode_single_param` specialised to operate on the opcode
cell and the argument cells following it (`program[pc..].split_at(1)`):
errs with "Not enough arguments" when no argument cell exists. -/
def Operation.decode_single_param (cell : Byte) (args : List Byte) :
    Except Failure Parameter :=
  match args with
  | v0 :: _ => Parameter.from_mode_and_value (Operation.modes cell 0) v0
  | _ => .error (.err .notEnoughArguments)

/-- `Operation::decode_two_params` on the opcode cell and argument cells. -/
def Operation.decode_two_params (cell : Byte) (args : List Byte) :
    Except Failure (Parameter × Parameter) :=
  match args with
  | v0 :: v1 :: _ => do
    let a ← Parameter.from_mode_and_value (Operation.modes cell 0) v0
    let b ← Parameter.from_mode_and_value (Operation.modes cell 1) v1
    pure (a, b)
  | _ => .error (.err .notEnoughArguments)

/-- `Operation::decode_three_params` on the opcode cell and argument cells. -/
def Operation.decode_three_params (cell : Byte) (args : List Byte) :
    Except Failure (Parameter × Parameter × Parameter) :=
  match args with
  | v0 :: v1 :: v2 :: _ => do
    let a ← Parameter.from_mode_and_value (Operation.modes cell 0) v0
    let b ← Parameter.from_mode_and_value (Operation.modes cell 1) v1
    let c ← Parameter.from_mode_and_value (Operation.modes cell 2) v2
    pure (a, b, c)
  | _ => .error (.err .notEnoughArguments)

/-- The body of `Operation::decode` once the opcode cell (`program[pc]`) and
the following argument cells (`&program[pc + 1..]`) are in hand:
`let opcode = program[pc] % 100;` then the `match`. -/
def Operation.decode_aux (cell : Byte) (args : List Byte) : Except Failure Operation :=
  let opcode := cell.tmod 100
  if opcode = 1 then do
    let (l, r, o) ← Operation.decode_three_params cell args
    pure (.add l r o)
  else if opcode = 2 then do
    let (l, r, o) ← Operation.decode_three_params cell args
    pure (.multiply l r o)
  else if opcode = 3 then do
    let p ← Operation.decode_single_param cell args
    pure (.input p)
  else if opcode = 4 then do
    let p ← Operation.decode_single_param cell args
    pure (.output p)
  else if opcode = 5 then do
    let (c, l) ← Operation.decode_two_params cell args
    pure (.jumpIfTrue c l)
  else if opcode = 6 then do
    let (c, l) ← Operation.decode_two_params cell args
    pure (.jumpIfFalse c l)
  else if opcode = 7 then do
    let (l, r, o) ← Operation.decode_three_params cell args
    pure (.lessThan l r o)
  else if opcode = 8 then do
    let (l, r, o) ← Operation.decode_three_params cell args
    pure (.equals l r o)
  else if opcode = 9 then do
    let p ← Operation.decode_single_param cell args
    pure (.adjustRelativeBase p)
  else if opcode = 99 then pure .halt
  else .error (.err (.unknownOpcode opcode))

/-- `Operation::decode`: indexing `program[pc]` panics when `pc` is not a
valid index; otherwise decode from the opcode cell and its trailing
argument cells. -/
def Operation.decode (program : Program) (pc : Nat) : Except Failure Operation :=
  if h : pc < program.length then
    Operation.decode_aux (program.get ⟨pc, h⟩) (program.drop (pc + 1))
  else .error (.panic .indexOutOfRange)

/-- `Operation::width`. -/
def Operation.width : Operation → Nat
  | .add _ _ _ => 4
  | .multiply _ _ _ => 4
  | .input _ => 2
  | .output _ => 2
  | .jumpIfTrue _ _ => 3
  | .jumpIfFalse _ _ => 3
  | .lessThan _ _ _ => 4
  | .equals _ _ _ => 4
  | .adjustRelativeBase _ => 2
  | .halt => 1

/-- The mutable state threaded through `Computer::execute`: the fields of
`Computer` (`program`, `pc`, `relative_base`, with `relative_base: usize`
modelled as `Nat`) plus the input iterator (remaining values) and the
output sink (values pushed so far, in order). -/
structure State where
  program : Program
  pc : Nat
  relative_base : Nat
  input : List Byte
  output : List Byte
deriving DecidableEq, Repr

/-- `Operation::execute`: one instruction's effect on the state.  Jump
targets convert with `try_into()?` (an `Err` on negative values);
`AdjustRelativeBase` converts the new base with `usize::try_from(..).expect`,
a panic when the adjusted base would be negative. -/
def Operation.execute (op : Operation) (s : State) : Except Failure State :=
  match op with
  | .add l r o => do
    let lv ← l.read s.program s.relative_base
    let rv ← r.read s.program s.relative_base
    let program ← o.write s.program s.relative_base (lv + rv)
    pure { s with program := program, pc := s.pc + op.width }
  | .multiply l r o => do
    let lv ← l.read s.program s.relative_base
    let rv ← r.read s.program s.relative_base
    let program ← o.write s.program s.relative_base (lv * rv)
    pure { s with program := program, pc := s.pc + op.width }
  | .input p =>
    match s.input with
    | [] => .error (.err .noMoreInput)
    | v :: rest => do
      let program ← p.write s.program s.relative_base v
      pure { s with program := program, input := rest, pc := s.pc + op.width }
  | .output p => do
    let v ← p.read s.program s.relative_base
    pure { s with output := s.output ++ [v], pc := s.pc + op.width }
  | .jumpIfTrue c l => do
    let cv ← c.read s.program s.relative_base
    if cv ≠ 0 then do
      let t ← l.read s.program s.relative_base
      if t < 0 then .error (.err .conversionFailed)
      else pure { s with pc := t.toNat }
    else pure { s with pc := s.pc + op.width }
  | .jumpIfFalse c l => do
    let cv ← c.read s.program s.relative_base
    if cv = 0 then do
      let t ← l.read s.program s.relative_base
      if t < 0 then .error (.err .conversionFailed)
      else pure { s with pc := t.toNat }
    else pure { s with pc := s.pc + op.width }
  | .lessThan l r o => do
    let lv ← l.read s.program s.relative_base
    let rv ← r.read s.program s.relative_base
    let v : Byte := if lv < rv then 1 else 0
    let program ← o.write s.program s.relative_base v
    pure { s with program := program, pc := s.pc + op.width }
  | .equals l r o => do
    let lv ← l.read s.program s.relative_base
    let rv ← r.read s.program s.relative_base
    let v : Byte := if lv = rv then 1 else 0
    let program ← o.write s.program s.relative_base v
    pure { s with program := program, pc := s.pc + op.width }
  | .adjustRelativeBase p => do
    let rv ← p.read s.program s.relative_base
    let a : Int := (s.relative_base : Int) + rv
    if a < 0 then .error (.panic .negativeAddress)
    else pure { s with relative_base := a.toNat, pc := s.pc + op.width }
  | .halt => pure { s with pc := s.pc + op.width }

/-- The `loop` of `Computer::execute`, with explicit fuel: decode at `pc`,
execute, stop after a `Halt`; any failure is returned at once.  `none` means
the loop did not finish within `fuel` iterations. -/
def Computer.run : Nat → State → Option (Except Failure State)
  | 0, _ => none
  | fuel + 1, s =>
    match Operation.decode s.program s.pc with
    | .error e => some (.error e)
    | .ok op =>
      match op.execute s with
      | .error e => some (.error e)
      | .ok s' => if op = Operation.halt then some (.ok s') else Computer.run fuel s'

/-- `Computer` as constructed by `Computer::new` (before `execute` attaches
input and output streams). -/
structure Computer where
  program : Program
  pc : Nat
  relative_base : Nat
deriving DecidableEq, Repr

/-- `Computer::new`: `pc = 0`, `relative_base = 0`. -/
def Computer.new (program : Program) : Computer :=
  { program := program, pc := 0, relative_base := 0 }

/-- The state at the start of `Computer::execute` on a fresh
`Computer::new(program)` with the given input values and an empty output
sink — the configuration of `pub fn execute(program, input)`. -/
def initState (program : Program) (input : List Byte) : State :=
  { program := program, pc := 0, relative_base := 0, input := input, output := [] }

/-- `pub fn execute(program, input)` run with the given fuel. -/
def runProgram (program : Program) (input : List Byte) (fuel : Nat) :
    Option (Except Failure State) :=
  Computer.run fuel (initState program input)

/-- The output values of a finished successful run, in emission order. -/
def finalOutput : Option (Except Failure State) → Option (List Byte)
  | some (.ok s) => some s.output
  | _ => none

/-- The final memory of a finished successful run. -/
def finalMemory : Option (Except Failure State) → Option Program
  | some (.ok s) => some s.program
  | _ => none

/-- Whether an `Except` result is a success. -/
def exceptOk {ε α : Type} : Except ε α → Bool
  | .ok _ => true
  | .error _ => false

/-- Rust's `str::trim` on a character list (whitespace stripped from both
ends). -/
def trimChars (s : List Char) : List Char :=
  ((s.dropWhile Char.isWhitespace).reverse.dropWhile Char.isWhitespace).reverse

/-- Rust's `str::split(",")` on a character list: the comma-separated
fields, empty fields included (`"".split(",")` is `[""]`). -/
def splitComma : List Char → List (List Char)
  | [] => [[]]
  | c :: rest =>
    if c = ',' then [] :: splitComma rest
    else
      match splitComma rest with
      | t :: ts => (c :: t) :: ts
      | [] => [[c]]

/-- The comma-separated tokens of `s.trim().split(",")`. -/
def tokens (s : List Char) : List (List Char) :=
  splitComma (trimChars s)

/-- Value of a nonempty all-ASCII-digit character list; `none` otherwise —
the digit-string part of Rust's integer grammar. -/
def parseDigits (t : List Char) : Option Nat :=
  match t with
  | [] => none
  | _ =>
    if t.all Char.isDigit then some (t.foldl (fun acc c => acc * 10 + (c.toNat - 48)) 0)
    else none

/-- Rust's `str::parse::<i128>`: an optional ASCII sign followed by one or
more ASCII digits, the value within the `i128` range; anything else
(including leading or trailing whitespace) is a parse error. -/
def parseByte (t : List Char) : Option Byte :=
  match t with
  | '+' :: rest =>
    (parseDigits rest).bind fun n =>
      if (n : Int) ≤ 2 ^ 127 - 1 then some (n : Int) else none
  | '-' :: rest =>
    (parseDigits rest).bind fun n =>
      if (n : Int) ≤ 2 ^ 127 then some (-(n : Int)) else none
  | _ =>
    (parseDigits t).bind fun n =>
      if (n : Int) ≤ 2 ^ 127 - 1 then some (n : Int) else none

/-- `pub fn parse_program`: `s.trim().split(",").flat_map(str::parse).collect()`
— tokens that fail to parse are silently dropped. -/
def parse_program (s : List Char) : Program :=
  (tokens s).filterMap parseByte

/-- `<Computer as FromStr>::from_str`: `s.trim().split(",").map(str::parse).collect()`
into a `Result` — any token that fails to parse makes the whole parse an
`Err`. -/
def Computer.from_str (s : List Char) : Except Failure Computer :=
  match (tokens s).mapM parseByte with
  | some program => .ok (Computer.new program)
  | none => .error (.err .parseFailed)

/-- Reference addressing-mode extraction following the specification's
words: the higher digits of the opcode cell beyond the two opcode digits
encode, least-significant digit first, the mode of each parameter, and
digits beyond the cell's magnitude default to 0.  The `i`-th such decimal
digit of the cell's value. -/
def specMode (cell : Byte) (i : Nat) : Byte :=
  ((cell.toNat / 10 ^ (i + 2)) % 10 : Nat)

/-- Reference single-parameter decoder using `specMode`. -/
def specSingleParam (cell : Byte) (args : List Byte) : Except Failure Parameter :=
  match args with
  | v0 :: _ => Parameter.from_mode_and_value (specMode cell 0) v0
  | _ => .error (.err .notEnoughArguments)

/-- Reference two-parameter decoder using `specMode`. -/
def specTwoParams (cell : Byte) (args : List Byte) :
    Except Failure (Parameter × Parameter) :=
  match args with
  | v0 :: v1 :: _ => do
    let a ← Parameter.from_mode_and_value (specMode cell 0) v0
    let b ← Parameter.from_mode_and_value (specMode cell 1) v1
    pure (a, b)
  | _ => .error (.err .notEnoughArguments)

/-- Reference three-parameter decoder using `specMode`. -/
def specThreeParams (cell : Byte) (args : List Byte) :
    Except Failure (Parameter × Parameter × Parameter) :=
  match args with
  | v0 :: v1 :: v2 :: _ => do
    let a ← Parameter.from_mode_and_value (specMode cell 0) v0
    let b ← Parameter.from_mode_and_value (specMode cell 1) v1
    let c ← Parameter.from_mode_and_value (specMode cell 2) v2
    pure (a, b, c)
  | _ => .error (.err .notEnoughArguments)

/-- Reference decoder written from the specification's words: the opcode is
the cell's value modulo 100 (`i128`'s truncated remainder), and parameter
`i` takes its addressing mode from the `i`-th higher decimal digit of the
same cell, least-significant first, defaulting to 0 (Position) beyond the
cell's magnitude. -/
def specDecodeAux (cell : Byte) (args : List Byte) : Except Failure Operation :=
  let opcode := cell.tmod 100
  if opcode = 1 then do
    let (l, r, o) ← specThreeParams cell args
    pure (.add l r o)
  else if opcode = 2 then do
    let (l, r, o) ← specThreeParams cell args
    pure (.multiply l r o)
  else if opcode = 3 then do
    let p ← specSingleParam cell args
    pure (.input p)
  else if opcode = 4 then do
    let p ← specSingleParam cell args
    pure (.output p)
  else if opcode = 5 then do
    let (c, l) ← specTwoParams cell args
    pure (.jumpIfTrue c l)
  else if opcode = 6 then do
    let (c, l) ← specTwoParams cell args
    pure (.jumpIfFalse c l)
  else if opcode = 7 then do
    let (l, r, o) ← specThreeParams cell args
    pure (.lessThan l r o)
  else if opcode = 8 then do
    let (l, r, o) ← specThreeParams cell args
    pure (.equals l r o)
  else if opcode = 9 then do
    let p ← specSingleParam cell args
    pure (.adjustRelativeBase p)
  else if opcode = 99 then pure .halt
  else .error (.err (.unknownOpcode opcode))

/-- The reference decoder applied at a program counter within bounds. -/
def specDecode (program : Program) (pc : Nat) : Except Failure Operation :=
  if h : pc < program.length then
    specDecodeAux (program.get ⟨pc, h⟩) (program.drop (pc + 1))
  else .error (.panic .indexOutOfRange)

/-- Programs consisting solely of (position-mode) Add, Multiply and Halt
instructions laid out in sequence. -/
inductive OnlyAddMulHalt : Program → Prop
  | halt : OnlyAddMulHalt [99]
  | add (a b c : Byte) (rest : Program) :
      OnlyAddMulHalt rest → OnlyAddMulHalt (1 :: a :: b :: c :: rest)
  | mul (a b c : Byte) (rest : Program) :
      OnlyAddMulHalt rest → OnlyAddMulHalt (2 :: a :: b :: c :: rest)

-- sanity checks against the source's unit tests
example : finalMemory (runProgram [1, 0, 0, 0, 99] [] 5) = some [2, 0, 0, 0, 99] := by decide
example : finalMemory (runProgram [2, 3, 0, 3, 99] [] 5) = some [2, 3, 0, 6, 99] := by decide
example : finalMemory (runProgram [2, 4, 4, 5, 99, 0] [] 5) = some [2, 4, 4, 5, 99, 9801] := by
  decide
example : finalMemory (runProgram [1, 1, 1, 4, 99, 5, 6, 0, 99] [] 5) =
    some [30, 1, 1, 4, 2, 5, 6, 0, 99] := by decide
example : finalOutput (runProgram [3, 0, 4, 0, 99] [42] 5) = some [42] := by decide
example : finalOutput (runProgram [3, 9, 8, 9, 10, 9, 4, 9, 99, -1, 8] [8] 6) = some [1] := by
  decide
example : finalOutput (runProgram [104, 1125899906842624, 99] [] 5) =
    some [1125899906842624] := by decide

/-! ### Helper lemmas -/

/-- The truncated remainder of a negative dividend is nonpositive, so a
negative opcode cell can never match a (positive) known opcode. -/
theorem tmod_nonpos_of_neg {c : Int} (h : c < 0) : c.tmod 100 ≤ 0 := by
  rcases c with m | m
  · exact absurd h (Int.ofNat_nonneg m).not_lt
  · have h2 : (Int.negSucc m).tmod 100 = -Int.ofNat (m.succ % 100) := rfl
    rw [h2]
    exact neg_nonpos.mpr (Int.ofNat_nonneg _)

/-- For a nonnegative opcode cell, the source's mode iterator
(`raw_op % (a * 10) / a`) yields exactly the decimal digits of the cell
beyond the two opcode digits, least-significant first. -/
theorem modes_eq_specMode {c : Byte} (hc : 0 ≤ c) (i : Nat) :
    Operation.modes c i = specMode c i := by
  unfold Operation.modes specMode
  obtain ⟨n, rfl⟩ : ∃ n : Nat, c = ↑n := ⟨c.toNat, (Int.toNat_of_nonneg hc).symm⟩
  rw [Int.toNat_natCast]
  rw [show (100 : Int) * 10 ^ i * 10 = ((10 ^ (i + 2) * 10 : Nat) : Int) by push_cast; ring]
  rw [show (100 : Int) * 10 ^ i = ((10 ^ (i + 2) : Nat) : Int) by push_cast; ring]
  rw [← Int.ofNat_tmod, ← Int.ofNat_tdiv]
  norm_cast
  exact Nat.mod_mul_right_div_self n _ 10

theorem decode_single_param_eq_spec {cell : Byte} (hc : 0 ≤ cell) (args : List Byte) :
    Operation.decode_single_param cell args = specSingleParam cell args := by
  unfold Operation.decode_single_param specSingleParam
  simp only [modes_eq_specMode hc]

theorem decode_two_params_eq_spec {cell : Byte} (hc : 0 ≤ cell) (args : List Byte) :
    Operation.decode_two_params cell args = specTwoParams cell args := by
  unfold Operation.decode_two_params specTwoParams
  simp only [modes_eq_specMode hc]

theorem decode_three_params_eq_spec {cell : Byte} (hc : 0 ≤ cell) (args : List Byte) :
    Operation.decode_three_params cell args = specThreeParams cell args := by
  unfold Operation.decode_three_params specThreeParams
  simp only [modes_eq_specMode hc]

theorem decode_aux_eq_spec (cell : Byte) (args : List Byte) :
    Operation.decode_aux cell args = specDecodeAux cell args := by
  rcases le_or_lt 0 cell with hc | hc
  · unfold Operation.decode_aux specDecodeAux
    simp only [decode_single_param_eq_spec hc, decode_two_params_eq_spec hc,
      decode_three_params_eq_spec hc]
  · have h100 : cell.tmod 100 ≤ 0 := tmod_nonpos_of_neg hc
    unfold Operation.decode_aux specDecodeAux
    have h1 : ¬(cell.tmod 100 = 1) := by omega
    have h2 : ¬(cell.tmod 100 = 2) := by omega
    have h3 : ¬(cell.tmod 100 = 3) := by omega
    have h4 : ¬(cell.tmod 100 = 4) := by omega
    have h5 : ¬(cell.tmod 100 = 5) := by omega
    have h6 : ¬(cell.tmod 100 = 6) := by omega
    have h7 : ¬(cell.tmod 100 = 7) := by omega
    have h8 : ¬(cell.tmod 100 = 8) := by omega
    have h9 : ¬(cell.tmod 100 = 9) := by omega
    have h99 : ¬(cell.tmod 100 = 99) := by omega
    simp only [h1, h2, h3, h4, h5, h6, h7, h8, h9, h99, if_false]

/-- Once the execute loop returns a result within some fuel, one more unit
of fuel returns the same result. -/
theorem Computer.run_succ {n : Nat} {s : State} {r : Except Failure State}
    (h : Computer.run n s = some r) : Computer.run (n + 1) s = some r := by
  induction n generalizing s with
  | zero => simp [Computer.run] at h
  | succ n ih =>
    rw [Computer.run] at h ⊢
    cases hd : Operation.decode s.program s.pc with
    | error e => simp only [hd] at h ⊢; exact h
    | ok op =>
      simp only [hd] at h ⊢
      cases he : op.execute s with
      | error e => simp only [he] at h ⊢; exact h
      | ok s' =>
        simp only [he] at h ⊢
        by_cases hh : op = Operation.halt
        · simp only [hh, if_pos] at h ⊢; exact h
        · simp only [if_neg hh] at h ⊢; exact ih h

/-- Fuel monotonicity of the execute loop. -/
theorem Computer.run_mono {n m : Nat} {s : State} {r : Except Failure State}
    (hnm : n ≤ m) (h : Computer.run n s = some r) : Computer.run m s = some r := by
  induction m with
  | zero => exact (Nat.le_zero.mp hnm) ▸ h
  | succ m ih =>
    rcases Nat.lt_or_ge n (m + 1) with hlt | hge
    · exact Computer.run_succ (ih (by omega))
    · have hn : n = m + 1 := by omega
      exact hn ▸ h

/-- The execute loop is a function of the initial state alone: any two
finished runs from the same state return the same result. -/
theorem Computer.run_det {n₁ n₂ : Nat} {s : State} {r₁ r₂ : Except Failure State}
    (h₁ : Computer.run n₁ s = some r₁) (h₂ : Computer.run n₂ s = some r₂) : r₁ = r₂ := by
  rcases Nat.le_total n₁ n₂ with h | h
  · have h' := Computer.run_mono h h₁
    rw [h'] at h₂
    exact Option.some_injective _ h₂
  · have h' := Computer.run_mono h h₂
    rw [h'] at h₁
    exact (Option.some_injective _ h₁).symm

/-- Writing at an index at or beyond the current length appends exactly the
needed zero padding followed by the written value. -/
theorem storeAt_extend (program : Program) {a : Nat} (h : program.length ≤ a) (v : Byte) :
    storeAt program a v = program ++ List.replicate (a - program.length) 0 ++ [v] := by
  unfold storeAt
  rw [if_pos h]
  have hk : a + 1 - program.length = (a - program.length) + 1 := by omega
  rw [hk, List.replicate_succ', ← List.append_assoc, List.set_append]
  have hlen : (program ++ List.replicate (a - program.length) 0).length = a := by
    simp
    omega
  rw [if_neg (by omega), hlen]
  simp

/-- If one element of a list maps to `none`, the `Option`-monadic map of the
whole list is `none`. -/
theorem mapM_eq_none {α β : Type} (f : α → Option β) {l : List α} {t : α}
    (ht : t ∈ l) (hn : f t = none) : l.mapM f = none := by
  induction l with
  | nil => cases ht
  | cons x xs ih =>
    rcases List.mem_cons.mp ht with rfl | hmem
    · simp only [List.mapM_cons, hn]
      rfl
    · simp only [List.mapM_cons, ih hmem]
      cases hfx : f x <;> simp [hfx]

/-- If one element of a list maps to `none`, `filterMap` strictly shrinks
the list. -/
theorem length_filterMap_lt {α β : Type} (f : α → Option β) {l : List α} {t : α}
    (ht : t ∈ l) (hn : f t = none) : (l.filterMap f).length < l.length := by
  induction l with
  | nil => cases ht
  | cons x xs ih =>
    rw [List.filterMap_cons]
    rcases List.mem_cons.mp ht with rfl | hmem
    · rw [hn]
      exact Nat.lt_succ_of_le (List.length_filterMap_le f xs)
    · cases hfx : f x
      · exact Nat.lt_succ_of_lt (ih hmem)
      · simpa using Nat.succ_lt_succ (ih hmem)

/-! ### Claims -/

/-- Claim C1 (amended): for every non-negative index at or beyond the current
memory length, a write at that index transparently extends the memory with
zeros up to and including that index (the target cell receiving the written
value), while a read at that index returns 0 as if the memory were so
extended but leaves the stored sequence unchanged; neither read nor write
reports an out-of-range error for a non-negative index.  Stated for a
Position parameter and for a Relative parameter resolving to the same
absolute index. -/
theorem claim_C1_zero_extension (program : Program) (a : Nat) (base : Nat) (v : Byte)
    (h : program.length ≤ a) :
    Parameter.read (.position a) program base = .ok 0 ∧
    Parameter.write (.position a) program base v
      = .ok (program ++ List.replicate (a - program.length) 0 ++ [v]) ∧
    (∀ r : Int, (base : Int) + r = (a : Int) →
      Parameter.read (.relative r) program base = .ok 0 ∧
      Parameter.write (.relative r) program base v
        = .ok (program ++ List.replicate (a - program.length) 0 ++ [v])) := by
  refine ⟨?_, ?_, ?_⟩
  · simp only [Parameter.read]
    rw [List.getD_eq_default _ _ h]
  · simp only [Parameter.write]
    rw [storeAt_extend program h v]
  · intro r hr
    have hnn : ¬((base : Int) + r < 0) := by omega
    have htn : ((base : Int) + r).toNat = a := by omega
    constructor
    · simp only [Parameter.read, if_neg hnn, htn]
      rw [List.getD_eq_default _ _ h]
    · simp only [Parameter.write, if_neg hnn, htn]
      rw [storeAt_extend program h v]

/-- Claim C1, counterexample to the read half as originally stated: the
program `[4,10,99]` outputs the value at position 10 (beyond the 3-cell
memory), the access completes (output `[0]`), yet the final memory is still
`[4,10,99]` — a read beyond the current length does *not* extend the
sequence up to and including that index. -/
theorem claim_C1_counterexample :
    finalOutput (runProgram [4, 10, 99] [] 5) = some [0] ∧
    finalMemory (runProgram [4, 10, 99] [] 5) = some [4, 10, 99] ∧
    ([4, 10, 99] : Program).length < 11 := by
  refine ⟨by decide, by decide, by decide⟩

/-- Claim C1, witness: a concrete out-of-range read and write at index 10 of
a 3-cell memory. -/
theorem claim_C1_witness :
    ([4, 10, 99] : Program).length ≤ 10 ∧
    Parameter.read (.position 10) [4, 10, 99] 0 = .ok 0 ∧
    Parameter.write (.position 10) [4, 10, 99] 0 7
      = .ok [4, 10, 99, 0, 0, 0, 0, 0, 0, 0, 7] :=
  ⟨by decide, (claim_C1_zero_extension [4, 10, 99] 10 0 7 (by decide)).1, by
    have h := (claim_C1_zero_extension [4, 10, 99] 10 0 7 (by decide)).2.1
    exact h⟩

/-- Claim C2: for every memory state and program counter within bounds, the
decoder computes the opcode as the cell value at the program counter modulo
100 (the `i128` truncated remainder), and reads the addressing mode of the
`i`-th parameter from the `i`-th remaining higher decimal digit of that same
cell, least-significant first (0 = Position, 1 = Immediate, 2 = Relative),
digits beyond the cell's magnitude defaulting to 0 (Position) — i.e. the
source decoder coincides with the reference decoder written from the
specification's digit description. -/
theorem claim_C2_decode_digits (program : Program) (pc : Nat)
    (h : pc < program.length) :
    Operation.decode program pc = specDecode program pc := by
  unfold Operation.decode specDecode
  rw [dif_pos h, dif_pos h]
  exact decode_aux_eq_spec _ _

/-- Claim C2, witness: decoding `1002` at pc 0 (opcode 2, modes 0,1,0). -/
theorem claim_C2_witness :
    (0 < ([1002, 4, 3, 4, 33] : Program).length) ∧
    Operation.decode [1002, 4, 3, 4, 33] 0 = specDecode [1002, 4, 3, 4, 33] 0 ∧
    Operation.decode [1002, 4, 3, 4, 33] 0
      = .ok (.multiply (.position 4) (.immediate 3) (.position 4)) :=
  ⟨by decide, claim_C2_decode_digits [1002, 4, 3, 4, 33] 0 (by decide), by rfl⟩

/-- Claim C3: an instruction whose write-target parameter is Immediate never
executes successfully — writing through an Immediate parameter is the fatal
`panic!("Must not write to immediate parameter")`, and executing any
Add/Multiply/LessThan/Equals/Input instruction whose target is Immediate
fails rather than silently succeeding. -/
theorem claim_C3_immediate_target_fatal (s : State) (l r : Parameter)
    (program : Program) (base : Nat) (v w : Byte) :
    Parameter.write (.immediate v) program base w = .error (.panic .writeToImmediate) ∧
    exceptOk (Operation.execute (.add l r (.immediate v)) s) = false ∧
    exceptOk (Operation.execute (.multiply l r (.immediate v)) s) = false ∧
    exceptOk (Operation.execute (.lessThan l r (.immediate v)) s) = false ∧
    exceptOk (Operation.execute (.equals l r (.immediate v)) s) = false ∧
    exceptOk (Operation.execute (.input (.immediate v)) s) = false := by
  refine ⟨rfl, ?_, ?_, ?_, ?_, ?_⟩
  · rcases hl : l.read s.program s.relative_base with e | lv <;>
      rcases hr : r.read s.program s.relative_base with e' | rv <;>
        simp [Operation.execute, hl, hr, Parameter.write, exceptOk, Bind.bind, Except.bind]
  · rcases hl : l.read s.program s.relative_base with e | lv <;>
      rcases hr : r.read s.program s.relative_base with e' | rv <;>
        simp [Operation.execute, hl, hr, Parameter.write, exceptOk, Bind.bind, Except.bind]
  · rcases hl : l.read s.program s.relative_base with e | lv <;>
      rcases hr : r.read s.program s.relative_base with e' | rv <;>
        simp [Operation.execute, hl, hr, Parameter.write, exceptOk, Bind.bind, Except.bind]
  · rcases hl : l.read s.program s.relative_base with e | lv <;>
      rcases hr : r.read s.program s.relative_base with e' | rv <;>
        simp [Operation.execute, hl, hr, Parameter.write, exceptOk, Bind.bind, Except.bind]
  · cases hi : s.input <;>
      simp [Operation.execute, hi, Parameter.write, exceptOk, Bind.bind, Except.bind]

/-- Claim C4: when an Input instruction executes with an exhausted input
source, the loop of `Computer::execute` stops at once and returns the
input-exhausted error to the caller, regardless of how much fuel remains —
no retry, no internal recovery. -/
theorem claim_C4_input_exhausted (s : State) (p : Parameter) (fuel : Nat)
    (hdec : Operation.decode s.program s.pc = .ok (.input p))
    (hin : s.input = []) :
    Computer.run (fuel + 1) s = some (.error (.err .noMoreInput)) := by
  have hex : Operation.execute (.input p) s = .error (.err .noMoreInput) := by
    simp [Operation.execute, hin]
  rw [Computer.run]
  simp only [hdec, hex]

/-- Claim C4, witness: program `[3,0,99]` with no input. -/
theorem claim_C4_witness :
    Operation.decode (initState [3, 0, 99] []).program (initState [3, 0, 99] []).pc
      = .ok (.input (.position 0)) ∧
    (initState [3, 0, 99] []).input = [] ∧
    Computer.run 1 (initState [3, 0, 99] []) = some (.error (.err .noMoreInput)) :=
  ⟨by rfl, rfl,
   claim_C4_input_exhausted (initState [3, 0, 99] []) (.position 0) 0 (by rfl) rfl⟩

/-- Claim C5: the quine program outputs exactly its own initial 16-cell
memory, in order, when executed with no input. -/
theorem claim_C5_quine :
    finalOutput (runProgram
        [109, 1, 204, -1, 1001, 100, 1, 100, 1008, 100, 16, 101, 1006, 101, 0, 99] [] 100)
      = some [109, 1, 204, -1, 1001, 100, 1, 100, 1008, 100, 16, 101, 1006, 101, 0, 99] := by
  decide

/-- Claim C6: the program `[1102,34915192,34915192,7,4,7,99,0]` with no input
produces exactly one output, equal to the exact mathematical product
`34915192 * 34915192` (the 16-digit number 1219070632396864), which fits in
the `i128` cell type with no overflow. -/
theorem claim_C6_big_multiply :
    finalOutput (runProgram [1102, 34915192, 34915192, 7, 4, 7, 99, 0] [] 5)
      = some [34915192 * 34915192] ∧
    (34915192 * 34915192 : Byte) = 1219070632396864 ∧
    (1219070632396864 : Int) < 2 ^ 127 := by
  refine ⟨by decide, by decide, by decide⟩

/-- Claim C7: execution is deterministic — for a program of Add/Multiply/Halt
instructions, any two finished runs from the same initial memory with no
input return identical results (in particular identical final memories),
whatever fuel each run was given. -/
theorem claim_C7_determinism (program : Program) (fuel₁ fuel₂ : Nat)
    (r₁ r₂ : Except Failure State) (_hamh : OnlyAddMulHalt program)
    (h₁ : runProgram program [] fuel₁ = some r₁)
    (h₂ : runProgram program [] fuel₂ = some r₂) : r₁ = r₂ :=
  Computer.run_det h₁ h₂

/-- Claim C7, witness: `[1,0,0,0,99]` run with fuel 2 and fuel 7. -/
theorem claim_C7_witness :
    OnlyAddMulHalt [1, 0, 0, 0, 99] ∧
    (Except.ok (⟨[2, 0, 0, 0, 99], 5, 0, [], []⟩ : State) : Except Failure State)
      = .ok (⟨[2, 0, 0, 0, 99], 5, 0, [], []⟩ : State) :=
  ⟨OnlyAddMulHalt.add 0 0 0 [99] OnlyAddMulHalt.halt,
   claim_C7_determinism [1, 0, 0, 0, 99] 2 7 _ _
     (OnlyAddMulHalt.add 0 0 0 [99] OnlyAddMulHalt.halt) (by rfl) (by rfl)⟩

/-- Claim C8: instruction fetch at a program counter at or beyond the memory
length does not zero-extend and does not return a decode `Err`: it is the
out-of-range indexing panic of `program[pc]`, so decode is only well-defined
when the program counter is strictly within the memory. -/
theorem claim_C8_decode_oob_panics (program : Program) (pc : Nat)
    (h : program.length ≤ pc) :
    Operation.decode program pc = .error (.panic .indexOutOfRange) := by
  unfold Operation.decode
  rw [dif_neg (by omega)]

/-- Claim C8, witness: fetching at pc 1 of the single-cell program `[99]`. -/
theorem claim_C8_witness :
    ([99] : Program).length ≤ 1 ∧
    Operation.decode [99] 1 = .error (.panic .indexOutOfRange) :=
  ⟨by decide, claim_C8_decode_oob_panics [99] 1 (by decide)⟩

/-- Claim C9: `parse_program` silently discards every comma-separated token
that does not parse as an integer — the result contains only successfully
parsed values (each backed by some token) and is strictly shorter than the
token list — while `Computer::from_str` returns an error on the same
malformed input. -/
theorem claim_C9_parse_discards (s t : List Char)
    (ht : t ∈ tokens s) (hn : parseByte t = none) :
    Computer.from_str s = .error (.err .parseFailed) ∧
    (parse_program s).length < (tokens s).length ∧
    (∀ v ∈ parse_program s, ∃ u ∈ tokens s, parseByte u = some v) := by
  refine ⟨?_, ?_, ?_⟩
  · unfold Computer.from_str
    rw [mapM_eq_none parseByte ht hn]
  · exact length_filterMap_lt parseByte ht hn
  · intro v hv
    exact List.mem_filterMap.mp hv

/-- Claim C9, witness: the malformed input `"1, 2"` (token `" 2"` has
interior whitespace): `parse_program` yields `[1]`, `from_str` errs. -/
theorem claim_C9_witness :
    [' ', '2'] ∈ tokens ['1', ',', ' ', '2'] ∧
    parseByte [' ', '2'] = none ∧
    Computer.from_str ['1', ',', ' ', '2'] = .error (.err .parseFailed) ∧
    parse_program ['1', ',', ' ', '2'] = [1] :=
  ⟨by decide, by decide,
   (claim_C9_parse_discards ['1', ',', ' ', '2'] [' ', '2'] (by decide) (by decide)).1,
   by decide⟩

/-- Claim C10: the relative-base register starts at 0 (`Computer::new` and
the initial execution state) and can never be stored negative: an
AdjustRelativeBase instruction whose operand would make the base negative
panics (`usize::try_from(b + r).expect(..)`) instead of completing. -/
theorem claim_C10_relative_base_nonneg (program : Program) (input : List Byte)
    (s : State) (p : Parameter) (rv : Byte)
    (hread : p.read s.program s.relative_base = .ok rv)
    (hneg : (s.relative_base : Int) + rv < 0) :
    (Computer.new program).relative_base = 0 ∧
    (initState program input).relative_base = 0 ∧
    Operation.execute (.adjustRelativeBase p) s = .error (.panic .negativeAddress) := by
  refine ⟨rfl, rfl, ?_⟩
  simp [Operation.execute, hread, if_pos hneg, Bind.bind, Except.bind]

/-- Claim C10, witness: `109,-1` executed from base 0. -/
theorem claim_C10_witness :
    Parameter.read (.immediate (-1)) (initState [109, -1, 99] []).program
        (initState [109, -1, 99] []).relative_base = .ok (-1) ∧
    ((initState [109, -1, 99] []).relative_base : Int) + (-1) < 0 ∧
    Operation.execute (.adjustRelativeBase (.immediate (-1))) (initState [109, -1, 99] [])
      = .error (.panic .negativeAddress) :=
  ⟨rfl, by decide,
   (claim_C10_relative_base_nonneg [109, -1, 99] [] (initState [109, -1, 99] [])
     (.immediate (-1)) (-1) rfl (by decide)).2.2⟩
